import Mathlib

/-!
Shallow embedding of the ARM Access Port layer of probe-rs
(src/probe-rs/src/architecture/arm/...), together with proofs about the
register codecs, the AP discovery scan, the memory AP configuration
operations and the unaligned byte-range read/write splicers.

Machine integers (u8/u32/u64) are embedded as natural numbers; the Rust
bit operations are kept verbatim as the corresponding operations on Nat
(`>>`/`<<`/`&`/`|` become the shift and bitwise operators on Nat, casts
become explicit `% 2 ^ w` where the value could exceed the width).
Fallible Rust functions returning Result become Except; a Rust panic
(slice out of range, todo!) is modelled as the `none` case of Option.
-/

/-- Error type of register decoding, carrying the register name and the
offending raw value (communication_interface::RegisterParseError). -/
structure RegisterParseError where
  name : String
  value : ℕ
deriving DecidableEq, Repr

/-- The position of Rust enum AddressIncrement (ap/v2/mod.rs): the TAR
auto-increment mode held in CSW bits 5:4. -/
inductive AddressIncrement where
  | Off
  | Single
  | Packed
deriving DecidableEq, Repr

/-- Discriminant values of AddressIncrement (Off = 0b00, Single = 0b01,
Packed = 0b10). -/
def AddressIncrement.toNat : AddressIncrement → ℕ
  | .Off => 0
  | .Single => 1
  | .Packed => 2

/-- AddressIncrement::from_u8 of the derived Primitive impl: inverse of
the discriminant mapping, failing on the unassigned pattern 0b11. -/
def AddressIncrement.fromNat : ℕ → Option AddressIncrement
  | 0 => some .Off
  | 1 => some .Single
  | 2 => some .Packed
  | _ => none

/-- The Rust enum DataSize (ap/v2/mod.rs): the CSW access size field,
bits 2:0. -/
inductive DataSize where
  | U8
  | U16
  | U32
  | U64
  | U128
  | U256
deriving DecidableEq, Repr

/-- Discriminant values of DataSize (U8 = 0b000 .. U256 = 0b101). -/
def DataSize.toNat : DataSize → ℕ
  | .U8 => 0
  | .U16 => 1
  | .U32 => 2
  | .U64 => 3
  | .U128 => 4
  | .U256 => 5

/-- DataSize::from_u8 / try_from of the derived Primitive impl: fails on
the unassigned patterns 0b110 and 0b111. -/
def DataSize.fromNat : ℕ → Option DataSize
  | 0 => some .U8
  | 1 => some .U16
  | 2 => some .U32
  | 3 => some .U64
  | 4 => some .U128
  | 5 => some .U256
  | _ => none

/-- Modelled from the spec: DataSize::to_byte_count lives in the missing
file ap/memory/registers.rs; the spec (section 4.4) has the APB variant
report UnsupportedTransferWidth(size in bytes * 8), so a U16 request is
reported as 16 bits, a U64 request as 64 bits, and so on. -/
def DataSize.toByteCount : DataSize → ℕ
  | .U8 => 1
  | .U16 => 2
  | .U32 => 4
  | .U64 => 8
  | .U128 => 16
  | .U256 => 32

/-- The constructors of ArmError (architecture/arm/mod.rs) reached by the
operations embedded here.  MemoryNotAligned carries the address and the
required alignment; UnsupportedTransferWidth carries the width in bits;
UnsupportedAddressIncrement carries the rejected increment mode. -/
inductive ArmError where
  | MemoryNotAligned (address : ℕ) (alignment : ℕ)
  | OutOfBounds
  | UnsupportedTransferWidth (bits : ℕ)
  | UnsupportedAddressIncrement (incr : AddressIncrement)
  | Parse (e : RegisterParseError)
deriving DecidableEq, Repr

/-- Registers that the embedded operations write, identified by kind. -/
inductive Reg where
  | csw
  | tar
  | tar2
  | drw
deriving DecidableEq, Repr

/-- ok_or_else on Option, as used to propagate enum decode failures in
the define_ap_register! from-blocks. -/
def okOr {α : Type} (o : Option α) (e : RegisterParseError) :
    Except RegisterParseError α :=
  match o with
  | some a => .ok a
  | none => .error e

namespace AmbaApb2Apb3

/-- Control and Status Word of the APB2/APB3 memory AP
(ap/memory/amba_apb2_apb3.rs).  The _reserved_bits field captures every
bit not otherwise modelled, to preserve IMPLEMENTATION DEFINED statuses. -/
structure CSW where
  DbgSwEnable : Bool
  TrInProg : Bool
  DeviceEn : Bool
  AddrInc : AddressIncrement
  Size : DataSize
  _reserved_bits : ℕ
deriving DecidableEq, Repr

/-- The from-block of the APB2/APB3 CSW codec: bit 31 DbgSwEnable, bit 7
TrInProg, bit 6 DeviceEn, bits 5:4 AddrInc, bits 2:0 Size, reserved mask
0x7FFFFF08. -/
def CSW.decode (value : ℕ) : Except RegisterParseError CSW := do
  let addrInc ← okOr (AddressIncrement.fromNat ((value >>> 4) &&& 0x03))
    ⟨"CSW", value⟩
  let size ← okOr (DataSize.fromNat (value &&& 0x07)) ⟨"CSW", value⟩
  .ok { DbgSwEnable := ((value >>> 31) &&& 0x01) != 0
        TrInProg := ((value >>> 7) &&& 0x01) != 0
        DeviceEn := ((value >>> 6) &&& 0x01) != 0
        AddrInc := addrInc
        Size := size
        _reserved_bits := value &&& 0x7FFFFF08 }

/-- The to-block of the APB2/APB3 CSW codec. -/
def CSW.encode (v : CSW) : ℕ :=
  ((cond v.DbgSwEnable 1 0) <<< 31)
    ||| ((cond v.TrInProg 1 0) <<< 7)
    ||| ((cond v.DeviceEn 1 0) <<< 6)
    ||| (v.AddrInc.toNat <<< 4)
    ||| v.Size.toNat
    ||| v._reserved_bits

end AmbaApb2Apb3

namespace ApV2

/-- ApClass of ap/v2/mod.rs: bits 16:13 of the IDR. -/
inductive ApClass where
  | Undefined
  | MemAp
deriving DecidableEq, Repr

/-- Discriminants: Undefined = 0b0000, MemAp = 0b1000. -/
def ApClass.toNat : ApClass → ℕ
  | .Undefined => 0
  | .MemAp => 8

/-- ApClass::from_u8 of the derived Primitive impl. -/
def ApClass.fromNat : ℕ → Option ApClass
  | 0 => some .Undefined
  | 8 => some .MemAp
  | _ => none

/-- ApType of ap/v2/mod.rs: the bus type tag in bits 3:0 of the IDR. -/
inductive ApType where
  | JtagComAp
  | AmbaAhb3
  | AmbaApb2Apb3
  | AmbaAxi3Axi4
  | AmbaAhb5
  | AmbaApb4Apb5
  | AmbaAxi5
  | AmbaAhb5Hprot
deriving DecidableEq, Repr

/-- Discriminant values of ApType (0x0, 0x1, 0x2, 0x4, 0x5, 0x6, 0x7,
0x8; 0x3 and 0x9..0xF are unassigned). -/
def ApType.toNat : ApType → ℕ
  | .JtagComAp => 0
  | .AmbaAhb3 => 1
  | .AmbaApb2Apb3 => 2
  | .AmbaAxi3Axi4 => 4
  | .AmbaAhb5 => 5
  | .AmbaApb4Apb5 => 6
  | .AmbaAxi5 => 7
  | .AmbaAhb5Hprot => 8

/-- ApType::from_u8 of the derived Primitive impl. -/
def ApType.fromNat : ℕ → Option ApType
  | 0 => some .JtagComAp
  | 1 => some .AmbaAhb3
  | 2 => some .AmbaApb2Apb3
  | 4 => some .AmbaAxi3Axi4
  | 5 => some .AmbaAhb5
  | 6 => some .AmbaApb4Apb5
  | 7 => some .AmbaAxi5
  | 8 => some .AmbaAhb5Hprot
  | _ => none

/-- jep106::JEP106Code: a continuation count byte and an identity byte. -/
structure JEP106Code where
  cc : ℕ
  id : ℕ
deriving DecidableEq, Repr

/-- Identification register of ap/v2/mod.rs: bits 31:28 REVISION, bits
27:17 DESIGNER (JEP106), bits 16:13 CLASS, bits 7:4 VARIANT, bits 3:0
TYPE. -/
structure IDR where
  REVISION : ℕ
  DESIGNER : JEP106Code
  CLASS : ApClass
  _RES0 : ℕ
  VARIANT : ℕ
  TYPE : ApType
deriving DecidableEq, Repr

/-- The from-block of the v2 IDR codec. -/
def IDR.decode (value : ℕ) : Except RegisterParseError IDR := do
  let cls ← okOr (ApClass.fromNat ((value >>> 13) &&& 0x0F)) ⟨"IDR", value⟩
  let ty ← okOr (ApType.fromNat (value &&& 0x0F)) ⟨"IDR", value⟩
  .ok { REVISION := (value >>> 28) &&& 0x0F
        DESIGNER :=
          { cc := ((value >>> 17) &&& 0x7FF) >>> 7
            id := ((value >>> 17) &&& 0x7FF) &&& 0x7F }
        CLASS := cls
        _RES0 := 0
        VARIANT := (value >>> 4) &&& 0x0F
        TYPE := ty }

/-- The to-block of the v2 IDR codec. -/
def IDR.encode (v : IDR) : ℕ :=
  (v.REVISION <<< 28)
    ||| (((v.DESIGNER.cc <<< 7) ||| v.DESIGNER.id) <<< 17)
    ||| (v.CLASS.toNat <<< 13)
    ||| (v.VARIANT <<< 4)
    ||| v.TYPE.toNat

/-- Control and Status Word register of ap/v2/mod.rs.  The individual
one- to seven-bit Rust u8 fields are embedded as naturals; the source
field named Type is rendered Typ because Type is reserved in Lean. -/
structure CSW where
  DbgSwEnable : ℕ
  PROT : ℕ
  SDeviceEn : ℕ
  RMEEN : ℕ
  ERRSTOP : ℕ
  ERRNPASS : ℕ
  MTE : ℕ
  Typ : ℕ
  Mode : ℕ
  TrinProg : ℕ
  DeviceEn : ℕ
  AddrInc : AddressIncrement
  SIZE : DataSize
deriving DecidableEq, Repr

/-- The from-block of the v2 CSW codec: bit 31, bits 30:24, bit 23, bits
22:21, bit 17, bit 16, bit 15, bits 14:12, bits 11:8, bit 7, bit 6, bits
5:4 and bits 2:0.  Bits 20:18 and bit 3 are not captured anywhere. -/
def CSW.decode (value : ℕ) : Except RegisterParseError CSW := do
  let addrInc ← okOr (AddressIncrement.fromNat ((value >>> 4) &&& 0x03))
    ⟨"CSW", value⟩
  let size ← okOr (DataSize.fromNat (value &&& 0x07)) ⟨"CSW", value⟩
  .ok { DbgSwEnable := (value >>> 31) &&& 0x01
        PROT := (value >>> 24) &&& 0x7F
        SDeviceEn := (value >>> 23) &&& 0x01
        RMEEN := (value >>> 21) &&& 0x03
        ERRSTOP := (value >>> 17) &&& 0x01
        ERRNPASS := (value >>> 16) &&& 0x01
        MTE := (value >>> 15) &&& 0x01
        Typ := (value >>> 12) &&& 0x07
        Mode := (value >>> 8) &&& 0x0F
        TrinProg := (value >>> 7) &&& 0x01
        DeviceEn := (value >>> 6) &&& 0x01
        AddrInc := addrInc
        SIZE := size }

/-- The to-block of the v2 CSW codec. -/
def CSW.encode (v : CSW) : ℕ :=
  (v.DbgSwEnable <<< 31)
    ||| (v.PROT <<< 24)
    ||| (v.SDeviceEn <<< 23)
    ||| (v.RMEEN <<< 21)
    ||| (v.ERRSTOP <<< 17)
    ||| (v.ERRNPASS <<< 16)
    ||| (v.MTE <<< 15)
    ||| (v.Typ <<< 12)
    ||| (v.Mode <<< 8)
    ||| (v.TrinProg <<< 7)
    ||| (v.DeviceEn <<< 6)
    ||| (v.AddrInc.toNat <<< 4)
    ||| v.SIZE.toNat

end ApV2

namespace ApV1

/-- Modelled from the spec: the v1 identification register codec lives in
the missing file ap/v1/generic_ap.rs; the spec (section 6) fixes the wire
layout (bits 31:28 revision, 27:17 JEP106 designer, 16:13 class, a 4-bit
type tag for this AP version) which matches the v2 codec present in
ap/v2/mod.rs, so the v1 codec is modelled by the same field extraction. -/
def IDR.decode : ℕ → Except RegisterParseError ApV2.IDR :=
  ApV2.IDR.decode

/-- Modelled from the spec: re-encoding of the v1 identification record
(the u32::from impl of the missing ap/v1/generic_ap.rs), inverse layout
of IDR.decode. -/
def IDR.encode : ApV2.IDR → ℕ :=
  ApV2.IDR.encode

/-- access_port_is_valid (ap/v1/mod.rs): read the IDR of the candidate
AP and check that the register is non-zero.  A failed raw read, and a
raw value on which the IDR decode fails, both yield false.  The raw
driver is embedded as a function from AP index to the read outcome. -/
def access_port_is_valid (driver : ℕ → Except Unit ℕ) (ap : ℕ) : Bool :=
  match driver ap with
  | .error _ => false
  | .ok raw =>
    match IDR.decode raw with
    | .error _ => false
    | .ok idr => IDR.encode idr != 0

/-- valid_access_ports (ap/v1/mod.rs): scan AP indices 0..=255 and keep
the initial run of valid ones (Iterator::take_while). -/
def valid_access_ports (driver : ℕ → Except Unit ℕ) : List ℕ :=
  (List.range 256).takeWhile (access_port_is_valid driver)

end ApV1

/-- u32::to_le_bytes: the four little-endian bytes of a 32-bit word. -/
def toLe4 (w : ℕ) : List ℕ :=
  [w % 256, w / 256 % 256, w / 65536 % 256, w / 16777216 % 256]

/-- u32::from_le_bytes: pack four bytes little-endian. -/
def fromLe4 (b0 b1 b2 b3 : ℕ) : ℕ :=
  b0 + 256 * b1 + 65536 * b2 + 16777216 * b3

/-- from_le_bytes applied to one 4-byte chunk produced by chunks_exact. -/
def fromLe4List (c : List ℕ) : ℕ :=
  fromLe4 (c.getD 0 0) (c.getD 1 0) (c.getD 2 0) (c.getD 3 0)

/-- slice::chunks_exact(4): the complete 4-byte chunks of a byte list,
any remainder of fewer than 4 bytes is dropped. -/
def chunks4 : List ℕ → List (List ℕ)
  | b0 :: b1 :: b2 :: b3 :: rest => [b0, b1, b2, b3] :: chunks4 rest
  | _ => []

/-- Semantics of the raw byte store primitives (ArmProbe::write_8, and
ArmProbe::write_32 after little-endian expansion): the bytes bs replace
memory at addr..addr+bs.length, everything else is untouched.  Memory is
a byte map. -/
def writeBytes (mem : ℕ → ℕ) (addr : ℕ) (bs : List ℕ) : ℕ → ℕ :=
  fun x => if addr ≤ x ∧ x < addr + bs.length then bs.getD (x - addr) 0 else mem x

/-- The word at a 4-byte-aligned address, as read by ArmProbe::read_32:
little-endian packing of the four bytes of the byte map. -/
def wordAt (mem : ℕ → ℕ) (a : ℕ) : ℕ :=
  fromLe4 (mem a) (mem (a + 1)) (mem (a + 2)) (mem (a + 3))

namespace ArmProbe

/-- Phases 2 and 3 of ArmProbe::write (architecture/arm/mod.rs lines
168-186), after the optional 8-bit prelude consumed start_extra_count
bytes: if inbetween_count is positive, pack the complete 4-byte chunks
little-endian and issue the 32-bit write (which stores the same bytes
back, to_le_bytes after from_le_bytes); then write the trailing
end_extra_count bytes with an 8-bit write. -/
def writePhases23 (mem : ℕ → ℕ) (address : ℕ) (data : List ℕ)
    (inbetween endExtra : ℕ) : ℕ → ℕ :=
  let mem2 :=
    if 0 < inbetween then
      writeBytes mem address
        (((chunks4 data).map fromLe4List).flatMap toLe4)
    else mem
  let data2 := data.drop inbetween
  if 0 < endExtra then writeBytes mem2 (address + inbetween) (data2.take endExtra)
  else mem2

/-- ArmProbe::write (architecture/arm/mod.rs lines 139-187): split the
byte range into an unaligned 8-bit prelude, a run of whole 32-bit words
and an 8-bit tail.  If the range is not word aligned and the platform
does not support 8-bit transfers, fail with MemoryNotAligned before any
transfer.  Returns the error, if any, together with the memory state
reached. -/
def write (supports8 : Bool) (mem : ℕ → ℕ) (address : ℕ) (data : List ℕ) :
    Option ArmError × (ℕ → ℕ) :=
  let len := data.length
  let startExtra := ((4 - address % 4) % 4).min len
  let endExtra := (len - startExtra) % 4
  let inbetween := len - startExtra - endExtra
  if address % 4 ≠ 0 ∨ len % 4 ≠ 0 then
    if supports8 = false then (some (.MemoryNotAligned address 4), mem)
    else
      let mem1 := writeBytes mem address (data.take startExtra)
      (none, writePhases23 mem1 (address + startExtra) (data.drop startExtra)
        inbetween endExtra)
  else
    (none, writePhases23 mem address data inbetween endExtra)

/-- ArmProbe::read (architecture/arm/mod.rs lines 81-102).  The data
argument is the incoming contents of the output buffer (the Rust
function fills a caller-provided &mut [u8] in place).  In the aligned
case every 4-byte chunk of the buffer is overwritten with the bytes of
the corresponding word.  In the unaligned case the code reads
(start_extra_count + len + 3) / 4 words from the aligned address below,
then indexes the WORD buffer with the BYTE range
start_extra_count..start_extra_count + len: when that range does not fit
(slice index out of range) the Rust code panics, embedded as none;
otherwise the zip pairs each 4-byte chunk of the buffer with one word of
the slice and any trailing len mod 4 bytes keep their incoming values. -/
def read (mem : ℕ → ℕ) (address : ℕ) (data : List ℕ) : Option (List ℕ) :=
  let len := data.length
  if address % 4 = 0 ∧ len % 4 = 0 then
    let buffer := (List.range (len / 4)).map (fun i => wordAt mem (address + 4 * i))
    some (buffer.flatMap toLe4)
  else
    let startExtra := address % 4
    let bufLen := (startExtra + len + 3) / 4
    if startExtra + len > bufLen then none
    else
      let buffer :=
        (List.range bufLen).map
          (fun i => wordAt mem (address - startExtra + 4 * i))
      let window := (buffer.drop startExtra).take len
      some (((window.take (len / 4)).flatMap toLe4) ++ data.drop (4 * (len / 4)))

end ArmProbe

namespace AmbaApb2Apb3

/-- Configuration register fields consumed by the APB2/APB3 AP.
Modelled from the spec: the CFG codec lives in the missing file
ap/memory/registers.rs; the spec (section 6) exposes the large data
extension and the large address extension as single bits, at the
positions given by the CFG codec of ap/v2/mod.rs (LD bit 2, LA bit 1). -/
structure CFG where
  LD : Bool
  LA : Bool
deriving DecidableEq, Repr

/-- Modelled from the spec: decode of the configuration register. -/
def CFG.decode (value : ℕ) : Except RegisterParseError CFG :=
  .ok { LD := ((value >>> 2) &&& 1) != 0, LA := ((value >>> 1) &&& 1) != 0 }

/-- Cached state of an AmbaApb2Apb3 memory AP: the control/status word
and the configuration register read at construction. -/
structure State where
  csw : CSW
  cfg : CFG
deriving DecidableEq, Repr

/-- AmbaApb2Apb3::new (ap/memory/amba_apb2_apb3.rs lines 74-95): read
and decode CSW and CFG, then set DbgSwEnable and single increment and
write the CSW back (unconditionally).  Raw reads are embedded as the two
raw values served by the driver; the returned list records the register
writes issued. -/
def new (cswRaw cfgRaw : ℕ) :
    Except ArmError State × List (Reg × ℕ) :=
  match CSW.decode cswRaw with
  | .error e => (.error (.Parse e), [])
  | .ok csw =>
    match CFG.decode cfgRaw with
    | .error e => (.error (.Parse e), [])
    | .ok cfg =>
      let desired : CSW := { csw with DbgSwEnable := true, AddrInc := .Single }
      (.ok { csw := desired, cfg := cfg }, [(Reg.csw, CSW.encode desired)])

/-- MemoryApType::try_set_datasize for AmbaApb2Apb3 (lines 112-123):
only the 32-bit data size is accepted; the probe argument is unused, so
no register write can be issued (second component always empty). -/
def try_set_datasize (dataSize : DataSize) :
    Except ArmError Unit × List (Reg × ℕ) :=
  match dataSize with
  | .U32 => (.ok (), [])
  | _ => (.error (.UnsupportedTransferWidth (dataSize.toByteCount * 8)), [])

/-- MemoryApDataSizeAndIncrementT::try_set_datasize_and_incr for
AmbaApb2Apb3 (lines 144-168): reject 32-bit + packed increment; accept
32-bit with the cached increment without touching hardware; otherwise
write the CSW with the new increment and cache it; reject every other
data size. -/
def try_set_datasize_and_incr (st : State) (dataSize : DataSize)
    (increment : AddressIncrement) :
    Except ArmError State × List (Reg × ℕ) :=
  match dataSize, increment with
  | .U32, .Packed => (.error (.UnsupportedAddressIncrement .Packed), [])
  | .U32, incr =>
    if incr = st.csw.AddrInc then (.ok st, [])
    else
      let csw : CSW := { st.csw with AddrInc := incr }
      (.ok { st with csw := csw }, [(Reg.csw, CSW.encode csw)])
  | _, _ => (.error (.UnsupportedTransferWidth (dataSize.toByteCount * 8)), [])

end AmbaApb2Apb3

/-- MemoryApT::set_target_address (ap/memory/mod.rs lines 250-277):
with the large address extension, write TAR2 with the upper half first
and then TAR with the lower half; without it, a non-zero upper half is
an out-of-bounds error issued before any register write, else only TAR
is written.  The u64 address splits as u32 casts of addr >> 32 and
addr. -/
def set_target_address (hasLargeAddressExtension : Bool) (address : ℕ) :
    Except ArmError Unit × List (Reg × ℕ) :=
  let addressLower := address % 2 ^ 32
  let addressUpper := address / 2 ^ 32 % 2 ^ 32
  if hasLargeAddressExtension then
    (.ok (), [(Reg.tar2, addressUpper), (Reg.tar, addressLower)])
  else if addressUpper ≠ 0 then (.error .OutOfBounds, [])
  else (.ok (), [(Reg.tar, addressLower)])

namespace MemApBase

/-- Format of the BASE register.  Modelled from the spec: the codec is in
the missing ap/memory/registers.rs; ap/memory/mod.rs matches on the
variants Legacy and ADIv5. -/
inductive BaseAddrFormat where
  | Legacy
  | ADIv5
deriving DecidableEq, Repr

/-- The format bit re-encoded (Legacy = 0, ADIv5 = 1). -/
def BaseAddrFormat.toNat : BaseAddrFormat → ℕ
  | .Legacy => 0
  | .ADIv5 => 1

/-- BASE register value.  Modelled from the spec: field layout taken
from the BASE codec of ap/v2/mod.rs (BASEADDR bits 31:12, format bit 1,
present bit 0) and, per the register codec contract of the spec
(section 4.1), the reserved bits 11:2 are captured verbatim so that
re-encoding reproduces the raw value. -/
structure BASE where
  BASEADDR : ℕ
  Format : BaseAddrFormat
  present : Bool
  _reserved : ℕ
deriving DecidableEq, Repr

/-- Modelled from the spec: decode of the BASE register. -/
def BASE.decode (value : ℕ) : BASE :=
  { BASEADDR := (value &&& 0xFFFFF000) >>> 12
    Format := if (value >>> 1) &&& 1 = 0 then .Legacy else .ADIv5
    present := (value &&& 1) != 0
    _reserved := value &&& 0xFFC }

/-- Modelled from the spec: encode of the BASE register (u32::from). -/
def BASE.encode (v : BASE) : ℕ :=
  (v.BASEADDR <<< 12) ||| v._reserved ||| (v.Format.toNat <<< 1)
    ||| (cond v.present 1 0)

/-- base_address (ap/memory/mod.rs lines 174-201): decode BASE; a raw
value re-encoding to 0xFFFF_FFFF hits the legacy-no-debug-entries todo!
(embedded as none); the ADIv5 format with the present flag clear hits
the second todo!; otherwise the address is the BASE2 raw value shifted
into the upper half (ADIv5 only) or-ed with the BASEADDR field shifted
left by 12 (a u32 shift, hence the cast modulo 2^32).  The two raw
register reads are embedded as the values served by the driver. -/
def base_address (baseRaw base2Raw : ℕ) : Option ℕ :=
  let b := BASE.decode baseRaw
  if BASE.encode b = 0xFFFFFFFF then none
  else
    let hi : Option ℕ :=
      match b.Format, b.present with
      | .Legacy, _ => some 0
      | .ADIv5, false => none
      | .ADIv5, true => some (base2Raw <<< 32)
    hi.map (fun h => h ||| (b.BASEADDR <<< 12) % 2 ^ 32)

end MemApBase

/-! ## Bit-manipulation helper lemmas -/

/-- Extracting a field (shift right then mask) and re-placing it (shift
left) equals masking the original value at the field position. -/
theorem shift_and_shift (v m s : ℕ) : ((v >>> s) &&& m) <<< s = v &&& (m <<< s) := by
  apply Nat.eq_of_testBit_eq
  intro i
  rw [Nat.testBit_shiftLeft, Nat.testBit_land, Nat.testBit_land, Nat.testBit_shiftLeft,
    Nat.testBit_shiftRight]
  by_cases h : s ≤ i
  · have h2 : s + (i - s) = i := by omega
    simp [ge_iff_le, h, h2]
  · simp [ge_iff_le, h]

/-- A mask whose low s bits are clear commutes with shifting the masked
value down and back up. -/
theorem masked_shiftRight_shiftLeft (v M s : ℕ) (hM : M % 2 ^ s = 0) :
    ((v &&& M) >>> s) <<< s = v &&& M := by
  obtain ⟨k, hk⟩ := (Nat.dvd_iff_mod_eq_zero).mpr hM
  apply Nat.eq_of_testBit_eq
  intro i
  rw [Nat.testBit_shiftLeft, Nat.testBit_shiftRight]
  by_cases h : s ≤ i
  · have h2 : s + (i - s) = i := by omega
    simp [ge_iff_le, h, h2]
  · have hMi : M.testBit i = false := by
      rw [hk, Nat.testBit_mul_pow_two]
      simp [ge_iff_le, h]
    simp [ge_iff_le, h, Nat.testBit_land, hMi]

/-- u32::from(b) for a bool b recovered from a bit y. -/
theorem cond_bne_of_lt_two (y : ℕ) (h : y < 2) : (cond (y != 0) 1 0) = y := by
  interval_cases y <;> rfl

/-- A field masked with a single bit is below 2. -/
theorem and_one_lt (v : ℕ) : v &&& 1 < 2 :=
  Nat.lt_of_le_of_lt Nat.and_le_right (by norm_num)

/-- AddressIncrement discriminants round-trip. -/
theorem addrInc_toNat_fromNat : ∀ y < 4, ∀ ai,
    AddressIncrement.fromNat y = some ai → ai.toNat = y := by decide

/-- DataSize discriminants round-trip. -/
theorem dataSize_toNat_fromNat : ∀ y < 8, ∀ sz,
    DataSize.fromNat y = some sz → sz.toNat = y := by decide

/-- ApClass discriminants round-trip. -/
theorem apClass_toNat_fromNat : ∀ y < 16, ∀ c,
    ApV2.ApClass.fromNat y = some c → c.toNat = y := by decide

/-- ApType discriminants round-trip. -/
theorem apType_toNat_fromNat : ∀ y < 16, ∀ t,
    ApV2.ApType.fromNat y = some t → t.toNat = y := by decide

/-- The BASE format bit round-trips. -/
theorem baseFormat_bit (y : ℕ) (h : y < 2) :
    (if y = 0 then MemApBase.BaseAddrFormat.Legacy else .ADIv5).toNat = y := by
  interval_cases y <;> rfl

/-! ## Register codec round-trip lemmas -/

/-- The APB2/APB3 CSW codec reassembles every bit of a decodable raw
value: the five modelled fields and the reserved mask 0x7FFFFF08
partition the 32 bits. -/
theorem apbCsw_encode_decode (v : ℕ) (hv : v < 2 ^ 32) (c : AmbaApb2Apb3.CSW)
    (h : AmbaApb2Apb3.CSW.decode v = .ok c) : AmbaApb2Apb3.CSW.encode c = v := by
  rw [AmbaApb2Apb3.CSW.decode] at h
  cases hai : AddressIncrement.fromNat ((v >>> 4) &&& 0x03) with
  | none => rw [hai] at h; simp [okOr, Except.instMonad, Except.bind] at h
  | some ai =>
  cases hsz : DataSize.fromNat (v &&& 0x07) with
  | none => rw [hai, hsz] at h; simp [okOr, Except.instMonad, Except.bind] at h
  | some sz =>
  rw [hai, hsz] at h
  simp only [okOr, Except.instMonad, Except.bind, Except.ok.injEq] at h
  subst h
  rw [AmbaApb2Apb3.CSW.encode]
  simp only
  rw [cond_bne_of_lt_two _ (and_one_lt _), cond_bne_of_lt_two _ (and_one_lt _),
    cond_bne_of_lt_two _ (and_one_lt _)]
  rw [addrInc_toNat_fromNat _ (Nat.lt_of_le_of_lt Nat.and_le_right (by norm_num)) _ hai]
  rw [dataSize_toNat_fromNat _ (Nat.lt_of_le_of_lt Nat.and_le_right (by norm_num)) _ hsz]
  rw [shift_and_shift, shift_and_shift, shift_and_shift, shift_and_shift]
  rw [← Nat.and_or_distrib_left, ← Nat.and_or_distrib_left, ← Nat.and_or_distrib_left,
    ← Nat.and_or_distrib_left, ← Nat.and_or_distrib_left]
  have hm : ((((1 <<< 31 ||| 1 <<< 7 : ℕ) ||| 1 <<< 6) ||| 3 <<< 4) ||| 7) ||| 0x7FFFFF08
      = 2 ^ 32 - 1 := by decide
  rw [hm, Nat.and_pow_two_sub_one_eq_mod, Nat.mod_eq_of_lt hv]

/-- The v2 CSW codec reassembles only the modelled fields: bits 20:18
and bit 3 of a decodable raw value are cleared by encode after decode
(the codec has no reserved-bits field). -/
theorem v2Csw_encode_decode (v : ℕ) (c : ApV2.CSW)
    (h : ApV2.CSW.decode v = .ok c) : ApV2.CSW.encode c = v &&& 0xFFE3FFF7 := by
  rw [ApV2.CSW.decode] at h
  cases hai : AddressIncrement.fromNat ((v >>> 4) &&& 0x03) with
  | none => rw [hai] at h; simp [okOr, Except.instMonad, Except.bind] at h
  | some ai =>
  cases hsz : DataSize.fromNat (v &&& 0x07) with
  | none => rw [hai, hsz] at h; simp [okOr, Except.instMonad, Except.bind] at h
  | some sz =>
  rw [hai, hsz] at h
  simp only [okOr, Except.instMonad, Except.bind, Except.ok.injEq] at h
  subst h
  rw [ApV2.CSW.encode]
  simp only
  rw [addrInc_toNat_fromNat _ (Nat.lt_of_le_of_lt Nat.and_le_right (by norm_num)) _ hai]
  rw [dataSize_toNat_fromNat _ (Nat.lt_of_le_of_lt Nat.and_le_right (by norm_num)) _ hsz]
  rw [shift_and_shift, shift_and_shift, shift_and_shift, shift_and_shift, shift_and_shift,
    shift_and_shift, shift_and_shift, shift_and_shift, shift_and_shift, shift_and_shift,
    shift_and_shift, shift_and_shift]
  rw [← Nat.and_or_distrib_left, ← Nat.and_or_distrib_left, ← Nat.and_or_distrib_left,
    ← Nat.and_or_distrib_left, ← Nat.and_or_distrib_left, ← Nat.and_or_distrib_left,
    ← Nat.and_or_distrib_left, ← Nat.and_or_distrib_left, ← Nat.and_or_distrib_left,
    ← Nat.and_or_distrib_left, ← Nat.and_or_distrib_left, ← Nat.and_or_distrib_left]
  have hm : ((((((((((((1 <<< 31 ||| 0x7F <<< 24 ||| 1 <<< 23 ||| 3 <<< 21 ||| 1 <<< 17
      ||| 1 <<< 16 ||| 1 <<< 15 ||| 7 <<< 12 ||| 0xF <<< 8 ||| 1 <<< 7 ||| 1 <<< 6
      ||| 3 <<< 4 ||| 7 : ℕ)))))))))))) = 0xFFE3FFF7 := by decide
  rw [hm]

/-- The modelled BASE codec reassembles every bit of a raw value. -/
theorem base_encode_decode (v : ℕ) (hv : v < 2 ^ 32) :
    MemApBase.BASE.encode (MemApBase.BASE.decode v) = v := by
  rw [MemApBase.BASE.decode, MemApBase.BASE.encode]
  simp only
  rw [masked_shiftRight_shiftLeft _ _ _ (by norm_num)]
  rw [cond_bne_of_lt_two _ (and_one_lt _)]
  rw [baseFormat_bit _ (and_one_lt _), shift_and_shift]
  rw [← Nat.and_or_distrib_left, ← Nat.and_or_distrib_left, ← Nat.and_or_distrib_left]
  have hm : (((0xFFFFF000 ||| 0xFFC : ℕ) ||| 1 <<< 1) ||| 1) = 2 ^ 32 - 1 := by decide
  rw [hm, Nat.and_pow_two_sub_one_eq_mod, Nat.mod_eq_of_lt hv]

/-! ## List and byte-splicing helper lemmas -/

/-- getD into a take, inside the taken prefix. -/
theorem getD_take {l : List ℕ} {n i : ℕ} (h : i < n) (d : ℕ) :
    (l.take n).getD i d = l.getD i d := by
  rw [List.getD_eq_getElem?_getD, List.getD_eq_getElem?_getD, List.getElem?_take, if_pos h]

/-- getD into a drop. -/
theorem getD_drop (l : List ℕ) (n i : ℕ) (d : ℕ) :
    (l.drop n).getD i d = l.getD (n + i) d := by
  rw [List.getD_eq_getElem?_getD, List.getD_eq_getElem?_getD, List.getElem?_drop]

/-- Little-endian unpacking inverts little-endian packing of bytes. -/
theorem toLe4_fromLe4 (b0 b1 b2 b3 : ℕ) (h0 : b0 < 256) (h1 : b1 < 256)
    (h2 : b2 < 256) (h3 : b3 < 256) :
    toLe4 (fromLe4 b0 b1 b2 b3) = [b0, b1, b2, b3] := by
  rw [toLe4, fromLe4]
  refine List.ext_getElem (by simp) ?_
  intro i hi _
  match i, hi with
  | 0, _ => simp; omega
  | 1, _ => simp; omega
  | 2, _ => simp; omega
  | 3, _ => simp; omega

/-- Packing the complete 4-byte chunks of a byte list into words and
expanding the words back to little-endian bytes reproduces the chunked
prefix of the list. -/
theorem chunks4_flat : ∀ l : List ℕ, (∀ b ∈ l, b < 256) →
    ((chunks4 l).map fromLe4List).flatMap toLe4 = l.take (4 * (l.length / 4))
  | b0 :: b1 :: b2 :: b3 :: rest, hb => by
    rw [chunks4]
    have hr := chunks4_flat rest (fun b hbr => hb b (by simp [hbr]))
    simp only [List.map_cons, List.flatMap_cons, hr]
    have hfl : fromLe4List [b0, b1, b2, b3] = fromLe4 b0 b1 b2 b3 := rfl
    rw [hfl]
    rw [toLe4_fromLe4 _ _ _ _ (hb b0 (by simp)) (hb b1 (by simp)) (hb b2 (by simp))
      (hb b3 (by simp))]
    have hlen : (b0 :: b1 :: b2 :: b3 :: rest).length = rest.length + 4 := by
      simp only [List.length_cons]
    rw [hlen]
    have : (rest.length + 4) / 4 = rest.length / 4 + 1 := by omega
    rw [this]
    have : 4 * (rest.length / 4 + 1) = 4 * (rest.length / 4) + 4 := by omega
    rw [this]
    simp [List.take_succ_cons]
  | [], _ => by simp [chunks4]
  | [b0], _ => by simp [chunks4]
  | [b0, b1], _ => by simp [chunks4]
  | [b0, b1, b2], _ => by simp [chunks4]

/-- writeBytes inside the written range. -/
theorem writeBytes_in (mem : ℕ → ℕ) (addr : ℕ) (bs : List ℕ) (i : ℕ)
    (h : i < bs.length) : writeBytes mem addr bs (addr + i) = bs.getD i 0 := by
  rw [writeBytes]
  rw [if_pos (by omega)]
  simp

/-- writeBytes outside the written range. -/
theorem writeBytes_out (mem : ℕ → ℕ) (addr : ℕ) (bs : List ℕ) (x : ℕ)
    (h : x < addr ∨ addr + bs.length ≤ x) : writeBytes mem addr bs x = mem x := by
  rw [writeBytes]
  rw [if_neg (by omega)]

/-- Joint effect of phases 2 and 3 of ArmProbe::write on the byte map:
with endExtra the residue of the remaining length and inbetween the
word-aligned rest, the phases store exactly the remaining bytes at
addr..addr+length and touch nothing else. -/
theorem writePhases23_eval (mem : ℕ → ℕ) (addr : ℕ) (d : List ℕ)
    (hb : ∀ b ∈ d, b < 256) (e ib : ℕ) (he : e = d.length % 4)
    (hib : ib = d.length - e) :
    (∀ i, i < d.length → ArmProbe.writePhases23 mem addr d ib e (addr + i) = d.getD i 0) ∧
    (∀ x, x < addr ∨ addr + d.length ≤ x → ArmProbe.writePhases23 mem addr d ib e x = mem x) := by
  have hflat := chunks4_flat d hb
  have hib4 : 4 * (d.length / 4) = ib := by omega
  rw [hib4] at hflat
  have hlenflat : (((chunks4 d).map fromLe4List).flatMap toLe4).length = ib := by
    rw [hflat, List.length_take]
    omega
  have hlendrop : ((d.drop ib).take e).length = e := by
    rw [List.length_take, List.length_drop]
    omega
  constructor
  · intro i hi
    simp only [ArmProbe.writePhases23]
    by_cases h2 : i < ib
    · have hibpos : 0 < ib := by omega
      rw [if_pos hibpos]
      by_cases h3 : 0 < e
      · rw [if_pos h3]
        rw [writeBytes_out _ _ _ _ (by omega)]
        rw [writeBytes_in _ _ _ _ (by omega), hflat, getD_take (by omega)]
      · rw [if_neg h3]
        rw [writeBytes_in _ _ _ _ (by omega), hflat, getD_take (by omega)]
    · have h3 : 0 < e := by omega
      rw [if_pos h3]
      have hx : addr + i = (addr + ib) + (i - ib) := by omega
      rw [hx]
      by_cases hibpos : 0 < ib
      · rw [if_pos hibpos]
        rw [writeBytes_in _ _ _ _ (by omega), getD_take (by omega), getD_drop]
        congr 1
        omega
      · rw [if_neg hibpos]
        rw [writeBytes_in _ _ _ _ (by omega), getD_take (by omega), getD_drop]
        congr 1
        omega
  · intro x hx
    simp only [ArmProbe.writePhases23]
    by_cases h3 : 0 < e
    · rw [if_pos h3]
      rw [writeBytes_out _ _ _ _ (by omega)]
      by_cases hibpos : 0 < ib
      · rw [if_pos hibpos]
        rw [writeBytes_out _ _ _ _ (by omega)]
      · rw [if_neg hibpos]
    · rw [if_neg h3]
      by_cases hibpos : 0 < ib
      · rw [if_pos hibpos]
        rw [writeBytes_out _ _ _ _ (by omega)]
      · rw [if_neg hibpos]

/-- ArmProbe::write succeeds when 8-bit transfers are supported or the
range is word aligned, stores exactly the requested bytes at
a..a+data.length, and leaves every other byte of memory unchanged. -/
theorem write_spliced (s8 : Bool) (mem : ℕ → ℕ) (a : ℕ) (data : List ℕ)
    (hb : ∀ b ∈ data, b < 256)
    (hal : s8 = true ∨ (a % 4 = 0 ∧ data.length % 4 = 0)) :
    (ArmProbe.write s8 mem a data).1 = none ∧
    (∀ i, i < data.length → (ArmProbe.write s8 mem a data).2 (a + i) = data.getD i 0) ∧
    (∀ x, x < a ∨ a + data.length ≤ x → (ArmProbe.write s8 mem a data).2 x = mem x) := by
  have hS : ((4 - a % 4) % 4).min data.length ≤ data.length := Nat.min_le_right _ _
  have htake : (data.take (((4 - a % 4) % 4).min data.length)).length
      = ((4 - a % 4) % 4).min data.length := by
    rw [List.length_take, Nat.min_eq_left hS]
  simp only [ArmProbe.write]
  by_cases hmis : a % 4 ≠ 0 ∨ data.length % 4 ≠ 0
  · have hs8 : s8 = true := by
      rcases hal with h | h
      · exact h
      · exact absurd h (by omega)
    rw [if_pos hmis, hs8, if_neg (by simp)]
    have key := writePhases23_eval
      (writeBytes mem a (data.take (((4 - a % 4) % 4).min data.length)))
      (a + ((4 - a % 4) % 4).min data.length)
      (data.drop (((4 - a % 4) % 4).min data.length))
      (fun b hbd => hb b (List.mem_of_mem_drop hbd))
      ((data.length - ((4 - a % 4) % 4).min data.length) % 4)
      (data.length - ((4 - a % 4) % 4).min data.length -
        (data.length - ((4 - a % 4) % 4).min data.length) % 4)
      (by rw [List.length_drop]) (by rw [List.length_drop])
    rw [List.length_drop] at key
    refine ⟨rfl, ?_, ?_⟩
    · intro i hi
      dsimp only
      by_cases hin : i < ((4 - a % 4) % 4).min data.length
      · rw [key.2 (a + i) (by omega)]
        rw [writeBytes_in _ _ _ _ (by omega)]
        rw [getD_take hin]
      · have hx : a + i = (a + ((4 - a % 4) % 4).min data.length) +
            (i - ((4 - a % 4) % 4).min data.length) := by omega
        rw [hx, key.1 _ (by omega), getD_drop]
        congr 1
        omega
    · intro x hx
      dsimp only
      rw [key.2 x (by omega)]
      rw [writeBytes_out _ _ _ _ (by omega)]
  · rw [if_neg hmis]
    have haln : a % 4 = 0 ∧ data.length % 4 = 0 := by
      by_contra hc
      exact hmis (by omega)
    have hS0 : ((4 - a % 4) % 4).min data.length = 0 := by
      rw [haln.1]
      simp
    have key := writePhases23_eval mem a data hb
      ((data.length - ((4 - a % 4) % 4).min data.length) % 4)
      (data.length - ((4 - a % 4) % 4).min data.length -
        (data.length - ((4 - a % 4) % 4).min data.length) % 4)
      (by omega) (by omega)
    exact ⟨rfl, fun i hi => key.1 i hi, fun x hx => key.2 x hx⟩

/-- ArmProbe::write on a misaligned range without 8-bit transfer support
fails with MemoryNotAligned and performs no store at all. -/
theorem write_misaligned_err (mem : ℕ → ℕ) (a : ℕ) (data : List ℕ)
    (hmis : a % 4 ≠ 0 ∨ data.length % 4 ≠ 0) :
    ArmProbe.write false mem a data = (some (.MemoryNotAligned a 4), mem) := by
  simp only [ArmProbe.write]
  rw [if_pos hmis, if_pos trivial]

/-- takeWhile on a contiguous index range stops exactly at the first
index where the predicate fails. -/
theorem takeWhile_range'_eq (p : ℕ → Bool) :
    ∀ (n : ℕ) (s k : ℕ), k ≤ n → (∀ i < k, p (s + i) = true) →
      (k < n → p (s + k) = false) →
      (List.range' s n).takeWhile p = List.range' s k := by
  intro n
  induction n with
  | zero =>
    intro s k hk _ _
    have hz : k = 0 := by omega
    subst hz
    simp
  | succ n ih =>
    intro s k hk h1 h2
    rw [List.range'_succ, List.takeWhile_cons]
    cases k with
    | zero =>
      have hp := h2 (by omega)
      rw [Nat.add_zero] at hp
      rw [hp]
      simp
    | succ k =>
      have hp : p s = true := by
        have := h1 0 (by omega)
        rwa [Nat.add_zero] at this
      rw [hp, if_pos rfl, List.range'_succ]
      congr 1
      refine ih (s + 1) k (by omega) ?_ ?_
      · intro i hi
        have := h1 (i + 1) (by omega)
        rwa [show s + (i + 1) = s + 1 + i by omega] at this
      · intro hlt
        have := h2 (by omega)
        rwa [show s + (k + 1) = s + 1 + k by omega] at this

/-! ## Claim theorems -/

/-- C1: the claim states that ArmProbe::read returns exactly the bytes
of memory in the requested range and never panics; in the misaligned
branch the code indexes the u32 word buffer with a byte range, so a
3-byte read at an address congruent 1 mod 4 panics with a slice index
out of range (first conjunct, the panic embedded as none), and a 1-byte
read at an aligned address returns the incoming buffer contents instead
of the memory byte (second conjunct: memory is all zeros yet the read
returns the stale 9). -/
theorem C1_read_byte_range_broken :
    ArmProbe.read (fun _ => 0) 1 [0, 0, 0] = none ∧
    ArmProbe.read (fun _ => 0) 0 [9] = some [9] := by
  constructor
  · rfl
  · rfl

/-- C2: ArmProbe::write decomposes any byte range into the 8-bit
prelude, the word run and the 8-bit tail; when 8-bit transfers are
supported (or the range is word aligned) it succeeds, the concatenation
of the phases stores exactly the requested bytes in order, and no byte
outside the range is ever mutated. -/
theorem C2_write_phases_exact (s8 : Bool) (mem : ℕ → ℕ) (a : ℕ)
    (data : List ℕ) (hb : ∀ b ∈ data, b < 256)
    (hal : s8 = true ∨ (a % 4 = 0 ∧ data.length % 4 = 0)) :
    (ArmProbe.write s8 mem a data).1 = none ∧
    (∀ i, i < data.length → (ArmProbe.write s8 mem a data).2 (a + i) = data.getD i 0) ∧
    (∀ x, x < a ∨ a + data.length ≤ x → (ArmProbe.write s8 mem a data).2 x = mem x) :=
  write_spliced s8 mem a data hb hal

/-- Witness for C2: an unaligned 5-byte write at 0x1001 succeeds, stores
the third byte at 0x1003 and leaves 0x1000 untouched. -/
theorem C2_write_phases_exact_witness :
    (ArmProbe.write true (fun _ => 7) 0x1001 [1, 2, 3, 4, 5]).1 = none ∧
    (ArmProbe.write true (fun _ => 7) 0x1001 [1, 2, 3, 4, 5]).2 (0x1001 + 2)
      = [1, 2, 3, 4, 5].getD 2 0 ∧
    (ArmProbe.write true (fun _ => 7) 0x1001 [1, 2, 3, 4, 5]).2 0x1000
      = (fun _ => (7 : ℕ)) 0x1000 := by
  have h := C2_write_phases_exact true (fun _ => 7) 0x1001 [1, 2, 3, 4, 5]
    (by decide) (Or.inl rfl)
  exact ⟨h.1, h.2.1 2 (by norm_num), h.2.2 0x1000 (by norm_num)⟩

/-- C3 counterexample: the claim states every codec re-emits reserved
bits verbatim; for the v2 CSW codec the raw value 8 (reserved bit 3 set)
decodes successfully but re-encodes to 0, not 8. -/
theorem C3_v2_csw_drops_reserved_bits :
    (ApV2.CSW.decode 8).map ApV2.CSW.encode = .ok 0 ∧ (0 : ℕ) ≠ 8 := by
  constructor
  · rfl
  · decide

/-- C3 amended: the decode-encode identity on raw values holds verbatim
for the APB2/APB3 CSW codec, which captures reserved bits in its
_reserved_bits field; the v2 CSW codec has no reserved field and
re-encodes a decodable raw value with the unmodelled bits 20:18 and 3
cleared (mask 0xFFE3FFF7). -/
theorem C3_codec_reserved_roundtrip_amended :
    (∀ v < 2 ^ 32, ∀ c, AmbaApb2Apb3.CSW.decode v = .ok c →
      AmbaApb2Apb3.CSW.encode c = v) ∧
    (∀ v c, ApV2.CSW.decode v = .ok c →
      ApV2.CSW.encode c = v &&& 0xFFE3FFF7) :=
  ⟨fun v hv c h => apbCsw_encode_decode v hv c h,
   fun v c h => v2Csw_encode_decode v c h⟩

/-- Witness for C3 amended: the raw APB2/APB3 CSW value 0x80000F12 with
reserved bits 11:8 set decodes and re-encodes to itself, and the raw v2
CSW value 8 re-encodes to 8 masked by 0xFFE3FFF7. -/
theorem C3_codec_reserved_roundtrip_witness :
    AmbaApb2Apb3.CSW.encode
      { DbgSwEnable := true, TrInProg := false, DeviceEn := false,
        AddrInc := .Single, Size := .U32, _reserved_bits := 0xF00 } = 0x80000F12 ∧
    ApV2.CSW.encode
      { DbgSwEnable := 0, PROT := 0, SDeviceEn := 0, RMEEN := 0, ERRSTOP := 0,
        ERRNPASS := 0, MTE := 0, Typ := 0, Mode := 0, TrinProg := 0, DeviceEn := 0,
        AddrInc := .Off, SIZE := .U8 } = 8 &&& 0xFFE3FFF7 :=
  ⟨C3_codec_reserved_roundtrip_amended.1 0x80000F12 (by norm_num) _ rfl,
   C3_codec_reserved_roundtrip_amended.2 8 _ rfl⟩

/-- C4 counterexample: the claim promises k discovered APs whenever the
identification reads are non-zero below k and zero at k; with k = 1 and
the non-zero raw value 0x2000 at index 0 (class nibble 1, which has no
enumerator, so the typed read fails to decode) the scan stops at once
and returns no AP instead of one. -/
theorem C4_nonzero_undecodable_idr_stops_scan :
    ApV1.valid_access_ports (fun i => if i = 0 then .ok 0x2000 else .ok 0) = [] ∧
    (0x2000 : ℕ) ≠ 0 ∧ ([] : List ℕ) ≠ List.range 1 := by
  refine ⟨?_, by decide, by decide⟩
  rfl

/-- C4 amended: if the reads below k decode to valid (re-encoding
non-zero) identification records and the read at k is invalid (zero
value, undecodable value or read error), the scan returns exactly the
indices 0..k-1 in order; and a read error at a probed index is treated
as AP-not-present, never as a fatal error. -/
theorem C4_discovery_scan_amended :
    (∀ (driver : ℕ → Except Unit ℕ) (k : ℕ), k ≤ 256 →
      (∀ i < k, ApV1.access_port_is_valid driver i = true) →
      (k < 256 → ApV1.access_port_is_valid driver k = false) →
      ApV1.valid_access_ports driver = List.range k) ∧
    (∀ (driver : ℕ → Except Unit ℕ) (i : ℕ) (e : Unit),
      driver i = .error e → ApV1.access_port_is_valid driver i = false) := by
  constructor
  · intro driver k hk h1 h2
    rw [ApV1.valid_access_ports, List.range_eq_range', List.range_eq_range']
    refine takeWhile_range'_eq _ 256 0 k hk ?_ ?_
    · intro i hi
      rw [Nat.zero_add]
      exact h1 i hi
    · intro hlt
      rw [Nat.zero_add]
      exact h2 hlt
  · intro driver i e h
    rw [ApV1.access_port_is_valid, h]

/-- Witness for C4 amended: a driver serving the valid AHB3 IDR value
0x24770011 at indices 0, 1, 2 and zero beyond discovers exactly the
indices 0, 1, 2, and a driver that always fails to read reports the AP
as not present. -/
theorem C4_discovery_scan_witness :
    ApV1.valid_access_ports (fun i => if i < 3 then .ok 0x24770011 else .ok 0)
      = List.range 3 ∧
    ApV1.access_port_is_valid (fun _ => .error ()) 5 = false :=
  ⟨C4_discovery_scan_amended.1 _ 3 (by norm_num) (by decide) (by decide),
   C4_discovery_scan_amended.2 _ 5 () rfl⟩

/-- C5: the APB2/APB3 AP accepts only the 32-bit data size; every other
size is rejected with UnsupportedTransferWidth(bytes * 8), the 32-bit
plus packed-increment combination is rejected with the unsupported
address increment error, and in all rejection paths no register write is
issued (empty write log) and no fallback state is installed. -/
theorem C5_apb_capability_errors (st : AmbaApb2Apb3.State) :
    AmbaApb2Apb3.try_set_datasize .U32 = (.ok (), []) ∧
    (∀ ds, ds ≠ .U32 →
      AmbaApb2Apb3.try_set_datasize ds =
        (.error (.UnsupportedTransferWidth (ds.toByteCount * 8)), [])) ∧
    AmbaApb2Apb3.try_set_datasize_and_incr st .U32 .Packed =
      (.error (.UnsupportedAddressIncrement .Packed), []) := by
  refine ⟨rfl, ?_, rfl⟩
  intro ds hds
  cases ds
  all_goals first | rfl | exact absurd rfl hds

/-- Witness for C5: a 16-bit request is rejected as a 16-bit-wide
unsupported transfer and the packed increment is rejected on a concrete
AP state, with empty write logs. -/
theorem C5_apb_capability_errors_witness :
    AmbaApb2Apb3.try_set_datasize .U16 =
      (.error (.UnsupportedTransferWidth (DataSize.toByteCount .U16 * 8)), []) ∧
    AmbaApb2Apb3.try_set_datasize_and_incr
      ⟨{ DbgSwEnable := true, TrInProg := false, DeviceEn := false,
         AddrInc := .Single, Size := .U32, _reserved_bits := 0 },
       { LD := false, LA := false }⟩ .U32 .Packed =
      (.error (.UnsupportedAddressIncrement .Packed), []) :=
  ⟨(C5_apb_capability_errors
      ⟨{ DbgSwEnable := true, TrInProg := false, DeviceEn := false,
         AddrInc := .Single, Size := .U32, _reserved_bits := 0 },
       { LD := false, LA := false }⟩).2.1 .U16 (by decide),
   (C5_apb_capability_errors _).2.2⟩

/-- C6: a misaligned byte-range write without 8-bit transfer support
fails with MemoryNotAligned before any transfer, leaving memory
untouched; the same write with 8-bit support succeeds and stores the
requested bytes. -/
theorem C6_write_alignment_gate (mem : ℕ → ℕ) (a : ℕ) (data : List ℕ)
    (hmis : a % 4 ≠ 0 ∨ data.length % 4 ≠ 0) (hb : ∀ b ∈ data, b < 256) :
    ArmProbe.write false mem a data = (some (.MemoryNotAligned a 4), mem) ∧
    (ArmProbe.write true mem a data).1 = none ∧
    (∀ i, i < data.length →
      (ArmProbe.write true mem a data).2 (a + i) = data.getD i 0) := by
  have h := write_spliced true mem a data hb (Or.inl rfl)
  exact ⟨write_misaligned_err mem a data hmis, h.1, h.2.1⟩

/-- Witness for C6: the spec scenario, 7 bytes of 0xAA at 0x1003. -/
theorem C6_write_alignment_gate_witness :
    ArmProbe.write false (fun _ => 0) 0x1003 (List.replicate 7 0xAA)
      = (some (.MemoryNotAligned 0x1003 4), fun _ => 0) ∧
    (ArmProbe.write true (fun _ => 0) 0x1003 (List.replicate 7 0xAA)).1 = none ∧
    (ArmProbe.write true (fun _ => 0) 0x1003 (List.replicate 7 0xAA)).2 (0x1003 + 3)
      = (List.replicate 7 0xAA).getD 3 0 := by
  have h := C6_write_alignment_gate (fun _ => 0) 0x1003 (List.replicate 7 0xAA)
    (by decide) (by decide)
  exact ⟨h.1, h.2.1, h.2.2 3 (by decide)⟩

/-- C7 counterexample: the claim states that construction writes the CSW
back only if the value read differs from the desired one; the raw CSW
value 0x80000012 already has DbgSwEnable set and single increment (first
conjunct), yet AmbaApb2Apb3::new still issues a CSW write of that very
value (second conjunct), so the write log is not empty (third
conjunct). -/
theorem C7_new_always_writes_csw :
    AmbaApb2Apb3.CSW.decode 0x80000012 = .ok
      { DbgSwEnable := true, TrInProg := false, DeviceEn := false,
        AddrInc := .Single, Size := .U32, _reserved_bits := 0 } ∧
    (AmbaApb2Apb3.new 0x80000012 0).2 = [(Reg.csw, 0x80000012)] ∧
    (AmbaApb2Apb3.new 0x80000012 0).2 ≠ [] := by
  refine ⟨rfl, rfl, by decide⟩

/-- C7 amended: construction sets DbgSwEnable and single increment and
writes the CSW back unconditionally, exactly one CSW write even when the
value read already matches; try_set_datasize_and_incr on the other hand
issues a CSW write only when the requested increment differs from the
cached one. -/
theorem C7_csw_write_avoidance_amended :
    (∀ cswRaw cfgRaw st w, AmbaApb2Apb3.new cswRaw cfgRaw = (.ok st, w) →
      w = [(Reg.csw, AmbaApb2Apb3.CSW.encode st.csw)] ∧
      st.csw.DbgSwEnable = true ∧ st.csw.AddrInc = .Single) ∧
    (∀ st incr, incr ≠ .Packed → incr = st.csw.AddrInc →
      AmbaApb2Apb3.try_set_datasize_and_incr st .U32 incr = (.ok st, [])) ∧
    (∀ st incr, incr ≠ .Packed → incr ≠ st.csw.AddrInc →
      AmbaApb2Apb3.try_set_datasize_and_incr st .U32 incr =
        (.ok { st with csw := { st.csw with AddrInc := incr } },
          [(Reg.csw, AmbaApb2Apb3.CSW.encode { st.csw with AddrInc := incr })])) := by
  refine ⟨?_, ?_, ?_⟩
  · intro cswRaw cfgRaw st w h
    rw [AmbaApb2Apb3.new] at h
    cases hc : AmbaApb2Apb3.CSW.decode cswRaw with
    | error e => rw [hc] at h; simp at h
    | ok csw =>
      rw [hc] at h
      cases hg : AmbaApb2Apb3.CFG.decode cfgRaw with
      | error e => rw [hg] at h; simp at h
      | ok cfg =>
        rw [hg] at h
        simp only [Prod.mk.injEq, Except.ok.injEq] at h
        obtain ⟨hst, hw⟩ := h
        subst hst
        subst hw
        exact ⟨rfl, rfl, rfl⟩
  · intro st incr hp hc
    cases incr with
    | Packed => exact absurd rfl hp
    | Off =>
      rw [AmbaApb2Apb3.try_set_datasize_and_incr]
      · rw [if_pos hc]
      all_goals decide
    | Single =>
      rw [AmbaApb2Apb3.try_set_datasize_and_incr]
      · rw [if_pos hc]
      all_goals decide
  · intro st incr hp hc
    cases incr with
    | Packed => exact absurd rfl hp
    | Off =>
      rw [AmbaApb2Apb3.try_set_datasize_and_incr]
      · rw [if_neg hc]
      all_goals decide
    | Single =>
      rw [AmbaApb2Apb3.try_set_datasize_and_incr]
      · rw [if_neg hc]
      all_goals decide

/-- Witness for C7 amended: construction from the all-zero CSW and CFG
raw values issues exactly the one write of the desired CSW; requesting
the already-cached single increment issues no write; requesting the off
increment on the same state issues one CSW write. -/
theorem C7_csw_write_avoidance_witness :
    ([(Reg.csw, (0x80000010 : ℕ))] : List (Reg × ℕ)) =
      [(Reg.csw, AmbaApb2Apb3.CSW.encode
        { DbgSwEnable := true, TrInProg := false, DeviceEn := false,
          AddrInc := .Single, Size := .U8, _reserved_bits := 0 })] ∧
    AmbaApb2Apb3.try_set_datasize_and_incr
      ⟨{ DbgSwEnable := true, TrInProg := false, DeviceEn := false,
         AddrInc := .Single, Size := .U32, _reserved_bits := 0 },
       { LD := false, LA := false }⟩ .U32 .Single =
      (.ok ⟨{ DbgSwEnable := true, TrInProg := false, DeviceEn := false,
              AddrInc := .Single, Size := .U32, _reserved_bits := 0 },
            { LD := false, LA := false }⟩, []) :=
  ⟨((C7_csw_write_avoidance_amended.1 0 0
      ⟨{ DbgSwEnable := true, TrInProg := false, DeviceEn := false,
         AddrInc := .Single, Size := .U8, _reserved_bits := 0 },
       { LD := false, LA := false }⟩
      [(Reg.csw, 0x80000010)] rfl).1).symm,
   C7_csw_write_avoidance_amended.2.1
     ⟨{ DbgSwEnable := true, TrInProg := false, DeviceEn := false,
        AddrInc := .Single, Size := .U32, _reserved_bits := 0 },
      { LD := false, LA := false }⟩ .Single (by decide) rfl⟩

/-- C8: with the large address extension, set_target_address writes TAR2
with the upper 32 bits first and TAR with the lower 32 bits second;
without the extension a non-zero upper half yields OutOfBounds with no
register write at all, and a zero upper half writes only TAR. -/
theorem C8_set_target_address_split (hasLA : Bool) (address : ℕ)
    (ha : address < 2 ^ 64) :
    (hasLA = true → set_target_address hasLA address =
      (.ok (), [(Reg.tar2, address / 2 ^ 32), (Reg.tar, address % 2 ^ 32)])) ∧
    (hasLA = false → address / 2 ^ 32 ≠ 0 →
      set_target_address hasLA address = (.error .OutOfBounds, [])) ∧
    (hasLA = false → address / 2 ^ 32 = 0 →
      set_target_address hasLA address = (.ok (), [(Reg.tar, address % 2 ^ 32)])) := by
  have ha64 : address < 18446744073709551616 := by norm_num at ha; exact ha
  refine ⟨?_, ?_, ?_⟩
  · intro h
    subst h
    simp [set_target_address]
    omega
  · intro h hne
    subst h
    have hne4 : address / 4294967296 ≠ 0 := by norm_num at hne; exact hne
    simp [set_target_address]
    omega
  · intro h he
    subst h
    have he4 : address / 4294967296 = 0 := by norm_num at he; exact he
    simp [set_target_address]
    omega

/-- Witness for C8: address 0x1_2345_6789 with the extension writes TAR2
then TAR; without the extension it is rejected out of bounds with no
write. -/
theorem C8_set_target_address_witness :
    set_target_address true 0x123456789 =
      (.ok (), [(Reg.tar2, 0x123456789 / 2 ^ 32), (Reg.tar, 0x123456789 % 2 ^ 32)]) ∧
    set_target_address false 0x123456789 = (.error .OutOfBounds, []) :=
  ⟨(C8_set_target_address_split true 0x123456789 (by norm_num)).1 rfl,
   (C8_set_target_address_split false 0x123456789 (by norm_num)).2.1 rfl
     (by norm_num)⟩

/-- C9 counterexample: the claim says the identification raw value
0x24770025 has type AmbaAhb3; its low type nibble is 0x5, which the
codec decodes as AmbaAhb5, not AmbaAhb3. -/
theorem C9_idr_type_nibble_is_ahb5 :
    (ApV2.IDR.decode 0x24770025).map (fun idr => idr.TYPE)
      = .ok ApV2.ApType.AmbaAhb5 ∧
    ApV2.ApType.AmbaAhb5 ≠ ApV2.ApType.AmbaAhb3 := by
  constructor
  · rfl
  · decide

/-- C9 amended: 0x24770025 decodes to designer code 0x23B (continuation
code 0x04, identity 0x3B), revision 2, class MemAp and type AmbaAhb5,
and encoding that value reproduces 0x24770025 exactly. -/
theorem C9_idr_scenario_amended :
    ApV2.IDR.decode 0x24770025 = .ok
      { REVISION := 2, DESIGNER := { cc := 0x04, id := 0x3B }, CLASS := .MemAp,
        _RES0 := 0, VARIANT := 2, TYPE := .AmbaAhb5 } ∧
    ApV2.IDR.encode
      { REVISION := 2, DESIGNER := { cc := 0x04, id := 0x3B }, CLASS := .MemAp,
        _RES0 := 0, VARIANT := 2, TYPE := .AmbaAhb5 } = 0x24770025 ∧
    ((0x04 : ℕ) <<< 7) ||| 0x3B = 0x23B := by
  refine ⟨rfl, rfl, rfl⟩

/-- C10: base_address panics (todo!) on the raw BASE value 0xFFFFFFFF
and on an ADIv5-format BASE with the present flag clear; on every other
BASE value it returns the BASE2 raw value as upper half (ADIv5 format)
or zero (legacy format), or-ed with the BASE address field shifted left
by 12. -/
theorem C10_base_address_todo_cases (baseRaw base2Raw : ℕ) (h1 : baseRaw < 2 ^ 32) :
    (baseRaw = 0xFFFFFFFF → MemApBase.base_address baseRaw base2Raw = none) ∧
    (baseRaw ≠ 0xFFFFFFFF → (baseRaw >>> 1) &&& 1 ≠ 0 → baseRaw &&& 1 = 0 →
      MemApBase.base_address baseRaw base2Raw = none) ∧
    (baseRaw ≠ 0xFFFFFFFF → (baseRaw >>> 1) &&& 1 ≠ 0 → baseRaw &&& 1 ≠ 0 →
      MemApBase.base_address baseRaw base2Raw =
        some ((base2Raw <<< 32) ||| (baseRaw &&& 0xFFFFF000))) ∧
    (baseRaw ≠ 0xFFFFFFFF → (baseRaw >>> 1) &&& 1 = 0 →
      MemApBase.base_address baseRaw base2Raw =
        some (baseRaw &&& 0xFFFFF000)) := by
  have hro : MemApBase.BASE.encode (MemApBase.BASE.decode baseRaw) = baseRaw :=
    base_encode_decode baseRaw h1
  have hlo : ((baseRaw &&& 0xFFFFF000) >>> 12) <<< 12 = baseRaw &&& 0xFFFFF000 :=
    masked_shiftRight_shiftLeft _ _ _ (by norm_num)
  have hlt : baseRaw &&& 0xFFFFF000 < 2 ^ 32 :=
    Nat.lt_of_le_of_lt Nat.and_le_left h1
  refine ⟨?_, ?_, ?_, ?_⟩
  · intro h
    subst h
    simp [MemApBase.base_address, hro]
  · intro h hfmt hpres
    simp only [MemApBase.base_address, hro]
    rw [if_neg h]
    simp only [MemApBase.BASE.decode]
    rw [if_neg hfmt]
    simp [hpres]
  · intro h hfmt hpres
    simp only [MemApBase.base_address, hro]
    rw [if_neg h]
    simp only [MemApBase.BASE.decode]
    rw [if_neg hfmt, hlo, Nat.mod_eq_of_lt hlt]
    have hb : ((baseRaw &&& 1) != 0) = true := by simpa using hpres
    rw [hb]
    rfl
  · intro h hfmt
    simp only [MemApBase.base_address, hro]
    rw [if_neg h]
    simp only [MemApBase.BASE.decode]
    rw [if_pos hfmt, hlo, Nat.mod_eq_of_lt hlt]
    simp

/-- Witness for C10: the raw BASE value 0xFFFFFFFF panics; the ADIv5
present BASE value 0x20001003 with BASE2 value 1 yields the combined
64-bit address; the legacy BASE value 0x20001000 yields the masked
low address. -/
theorem C10_base_address_witness :
    MemApBase.base_address 0xFFFFFFFF 0 = none ∧
    MemApBase.base_address 0x20001003 1 =
      some (((1 : ℕ) <<< 32) ||| (0x20001003 &&& 0xFFFFF000)) ∧
    MemApBase.base_address 0x20001000 5 = some ((0x20001000 : ℕ) &&& 0xFFFFF000) :=
  ⟨(C10_base_address_todo_cases 0xFFFFFFFF 0 (by norm_num)).1 rfl,
   (C10_base_address_todo_cases 0x20001003 1 (by norm_num)).2.2.1 (by norm_num)
     (by decide) (by decide),
   (C10_base_address_todo_cases 0x20001000 5 (by norm_num)).2.2.2 (by norm_num)
     (by decide)⟩
